import Mathlib

/-! Shallow embedding of the orchestration core of `src/main.rs` (vid2mp3):
the `Status` enum, the conversion job spawned by `App::convert`, the
thumbnail job spawned by `App::extract_thumbnail_async`, the `App::set_input`
state transition, and the convert-button gate of `App::update`.

Rust `PathBuf` is modelled as its raw byte sequence (`List Nat`), so that
`Path::to_str` (UTF-8 validity), `PathBuf::set_extension` and
`String::from_utf8_lossy` can be embedded faithfully.
-/

/-- The `Status` enum from `src/main.rs` (lines 63-69). -/
inductive Status where
  | idle
  | converting
  | done
  | error (msg : String)
deriving DecidableEq, Repr

/-- Outcome of `Command::output().await`: `Ok` carries the exit status
(success flag) and the captured stderr bytes; `Err` carries the
`std::io::Error` display text (the spawn failure description). -/
inductive SpawnResult where
  | ok (exitSuccess : Bool) (stderr : List Nat)
  | err (e : String)
deriving DecidableEq, Repr

/-- A Rust `PathBuf`, as its underlying byte sequence. -/
abbrev PathB := List Nat

/-- Bytes of a Lean string literal (used for ASCII constants from the source). -/
def strBytes (s : String) : List Nat := s.data.map Char.toNat

/-- UTF-8 continuation byte: `0x80..=0xBF`. -/
def isCont (b : Nat) : Bool := 128 ≤ b && b ≤ 191

/-- Lower bound of the valid second byte after leading byte `b`
(Unicode Table 3-7, as used by Rust's `core::str::validations`). -/
def cont2Lo (b : Nat) : Nat := if b = 224 then 160 else if b = 240 then 144 else 128

/-- Upper bound of the valid second byte after leading byte `b`. -/
def cont2Hi (b : Nat) : Nat := if b = 237 then 159 else if b = 244 then 143 else 191

/-- Valid second byte of a multi-byte sequence led by `b`. -/
def isCont2 (b c : Nat) : Bool := cont2Lo b ≤ c && c ≤ cont2Hi b

/-- The replacement character U+FFFD. -/
def replChar : Char := Char.ofNat 65533

/-- Model of `String::from_utf8_lossy`, at the character-list level: strict UTF-8
decoding with each maximal invalid subpart replaced by U+FFFD
(substitution of maximal subparts, as Rust implements it). -/
def utf8Lossy : List Nat → List Char
  | [] => []
  | b :: rest =>
    if b < 128 then Char.ofNat b :: utf8Lossy rest
    else if 194 ≤ b && b ≤ 223 then
      match rest with
      | c1 :: rest2 =>
        if isCont c1 then
          Char.ofNat ((b - 192) * 64 + (c1 - 128)) :: utf8Lossy rest2
        else replChar :: utf8Lossy (c1 :: rest2)
      | [] => [replChar]
    else if 224 ≤ b && b ≤ 239 then
      match rest with
      | c1 :: rest2 =>
        if isCont2 b c1 then
          match rest2 with
          | c2 :: rest3 =>
            if isCont c2 then
              Char.ofNat ((b - 224) * 4096 + (c1 - 128) * 64 + (c2 - 128)) :: utf8Lossy rest3
            else replChar :: utf8Lossy (c2 :: rest3)
          | [] => [replChar]
        else replChar :: utf8Lossy (c1 :: rest2)
      | [] => [replChar]
    else if 240 ≤ b && b ≤ 244 then
      match rest with
      | c1 :: rest2 =>
        if isCont2 b c1 then
          match rest2 with
          | c2 :: rest3 =>
            if isCont c2 then
              match rest3 with
              | c3 :: rest4 =>
                if isCont c3 then
                  Char.ofNat ((b - 240) * 262144 + (c1 - 128) * 4096
                    + (c2 - 128) * 64 + (c3 - 128)) :: utf8Lossy rest4
                else replChar :: utf8Lossy (c3 :: rest4)
              | [] => [replChar]
            else replChar :: utf8Lossy (c2 :: rest3)
          | [] => [replChar]
        else replChar :: utf8Lossy (c1 :: rest2)
      | [] => [replChar]
    else replChar :: utf8Lossy rest

/-- Strict UTF-8 validity of a byte sequence (`str::from_utf8` succeeding),
with the same sequence structure as `utf8Lossy`. -/
def isValidUtf8 : List Nat → Bool
  | [] => true
  | b :: rest =>
    if b < 128 then isValidUtf8 rest
    else if 194 ≤ b && b ≤ 223 then
      match rest with
      | c1 :: rest2 => isCont c1 && isValidUtf8 rest2
      | [] => false
    else if 224 ≤ b && b ≤ 239 then
      match rest with
      | c1 :: c2 :: rest3 => isCont2 b c1 && isCont c2 && isValidUtf8 rest3
      | _ => false
    else if 240 ≤ b && b ≤ 244 then
      match rest with
      | c1 :: c2 :: c3 :: rest4 => isCont2 b c1 && isCont c2 && isCont c3 && isValidUtf8 rest4
      | _ => false
    else false

/-- Model of `Path::to_str`: `Some` of the decoded string exactly when the bytes are
valid UTF-8. -/
def pathToStr (p : PathB) : Option String :=
  if isValidUtf8 p then some (String.mk (utf8Lossy p)) else none

/-- Model of `String::from_utf8_lossy(bytes).to_string()`. -/
def fromUtf8Lossy (bytes : List Nat) : String := String.mk (utf8Lossy bytes)

/-- The fixed ffmpeg argument list of the conversion job
(`src/main.rs` lines 250-261, non-Windows branch; the Windows branch
passes the same arguments). -/
def convert_args (input_str output_str : String) : List String :=
  ["-i", input_str, "-vn", "-acodec", "libmp3lame", "-ab", "192k", "-y", output_str]

/-- The status value computed by the conversion task from the subprocess
outcome (`src/main.rs` lines 265-269). -/
def statusOfResult : SpawnResult → Status
  | .ok true _ => .done
  | .ok false stderr => .error (fromUtf8Lossy stderr)
  | .err e => .error e

/-- The async task spawned by `App::convert` (`src/main.rs` lines 226-272).
It first unwraps `input.to_str()` and `output.to_str()` while building the
argument list; if either path is not valid UTF-8 the `unwrap` panics and the
task performs no Status-Cell write (`none`). Otherwise it runs the
subprocess and writes `statusOfResult r` (`some`). -/
def convertTask (input output : PathB) (r : SpawnResult) : Option Status :=
  match pathToStr input, pathToStr output with
  | some _, some _ => some (statusOfResult r)
  | _, _ => none

/-- The sequence of Status-Cell writes performed by one run of
`App::convert`: the synchronous `Status::Converting` write (line 224)
followed by the task's terminal write, if the task reaches it. -/
def convertStatusTrace (input output : PathB) (r : SpawnResult) : List Status :=
  Status.converting :: (match convertTask input output r with
    | some st => [st]
    | none => [])

/-- Value of a status cell after a sequence of whole-value overwrites
(last write wins). -/
def cellAfter (init : Status) (writes : List Status) : Status :=
  writes.foldl (fun _ w => w) init

/-- Find the last occurrence of byte `sep` in `l`, returning the bytes
before and after it. -/
def breakAtLast (sep : Nat) : List Nat → Option (List Nat × List Nat)
  | [] => none
  | b :: rest =>
    match breakAtLast sep rest with
    | some (pre, post) => some (b :: pre, post)
    | none => if b = sep then some ([], rest) else none

/-- Split a path into its directory part (including the trailing separator)
and its final component (`Path::file_name`, for paths whose final component
is a plain file name; 47 is the byte of the path separator). -/
def fileNameSplit (p : PathB) : PathB × PathB :=
  match breakAtLast 47 p with
  | some (pre, post) => (pre ++ [47], post)
  | none => ([], p)

/-- Split a file name into stem and extension, with Rust's rule: the
extension is what follows the last dot (byte 46), except that a name whose
only dot is leading (a hidden file such as `.bashrc`) has no extension. -/
def stemExtSplit (name : List Nat) : List Nat × Option (List Nat) :=
  match breakAtLast 46 name with
  | some (pre, post) => if pre = [] then (name, none) else (pre, some post)
  | none => (name, none)

/-- Model of `Path::extension` of the final component of `p`. -/
def extOf (p : PathB) : Option (List Nat) := (stemExtSplit (fileNameSplit p).2).2

/-- The path's final component is a plain file name (nonempty, not `.`
or `..`, no trailing separator), so that `Path::file_name` is `Some` and
`fileNameSplit` models it; 46 is the byte of the dot. -/
def goodPath (p : PathB) : Bool :=
  let n := (fileNameSplit p).2
  decide (n ≠ []) && decide (n ≠ [46]) && decide (n ≠ [46, 46])

/-- The bytes of `"mp3"`. -/
def mp3Bytes : List Nat := strBytes "mp3"

/-- Model of `PathBuf::set_extension(ext)` for nonempty `ext`: truncate the final
component to its stem and append a dot and `ext`. When the path has no
file name the call returns `false` and leaves the path unchanged
(`App::set_input` ignores the return value). -/
def setExtension (p : PathB) (ext : List Nat) : PathB :=
  if goodPath p then
    let dn := fileNameSplit p
    let stem := (stemExtSplit dn.2).1
    dn.1 ++ stem ++ (if ext = [] then [] else 46 :: ext)
  else p

/-- The `App` fields touched by the orchestration core (`src/main.rs`
lines 50-61): selection paths, the two shared cells, and the thumbnail
loading/texture flags (texture modelled by whether it is loaded). -/
structure AppState where
  input_path : Option PathB
  output_path : Option PathB
  status : Status
  thumbnail_path : Option PathB
  video_thumbnail : Bool
  thumbnail_loading : Bool
deriving DecidableEq, Repr

/-- Model of `App::new`: all selection state empty, status `Idle`, thumbnail cell
`None` (`src/main.rs` lines 72-85). -/
def appNew : AppState :=
  { input_path := none, output_path := none, status := .idle,
    thumbnail_path := none, video_thumbnail := false, thumbnail_loading := false }

/-- Model of `App::set_input` (`src/main.rs` lines 109-121), including the
synchronous part of `extract_thumbnail_async` it calls (which sets
`thumbnail_loading` to `true` at line 127 before spawning the job):
derives the output path by `set_extension("mp3")`, stores both paths,
clears the thumbnail texture and cell, and resets the status to `Idle`. -/
def set_input (s : AppState) (path : PathB) : AppState :=
  { s with
    output_path := some (setExtension path mp3Bytes),
    input_path := some path,
    video_thumbnail := false,
    thumbnail_path := none,
    status := .idle,
    thumbnail_loading := true }

/-- The dropped-file handler of `App::update` (`src/main.rs` lines
282-289): whenever the dropped-file list is nonempty, the first dropped
path is passed to `set_input` with no filtering of any kind. -/
def handleDrop (s : AppState) (droppedFiles : List PathB) : AppState :=
  match droppedFiles with
  | [] => s
  | p :: _ => set_input s p

/-- Decimal digit bytes of a natural number, as `format!("{}", n)` prints
an unsigned integer (most significant digit first, no leading zeros,
`0` printed as `"0"`; 48 is the byte of the digit zero). -/
def decDigits (n : Nat) : List Nat :=
  if n < 10 then [48 + n] else decDigits (n / 10) ++ [48 + n % 10]

/-- Model of `PathBuf::join` for a relative right operand: path separator between. -/
def pathJoin (a b : PathB) : PathB := a ++ 47 :: b

/-- The scratch directory `env::temp_dir().join("vid2mp3")`
(`src/main.rs` line 133), given the bytes of the system temp directory. -/
def tempDirOf (envTemp : PathB) : PathB := pathJoin envTemp (strBytes "vid2mp3")

/-- The generated thumbnail path
`temp_dir.join(format!("thumbnail_{}.jpg", timestamp))`
(`src/main.rs` lines 141-145), where `timestamp` is the Unix time in
whole seconds at job start. -/
def thumbnailFile (envTemp : PathB) (timestamp : Nat) : PathB :=
  pathJoin (tempDirOf envTemp)
    (strBytes "thumbnail_" ++ decDigits timestamp ++ strBytes ".jpg")

/-- Environment of one thumbnail job run: whether `create_dir_all`
succeeded, the subprocess outcome (when reached), and whether the
generated output file is present after the subprocess ran. -/
structure ThumbEnv where
  dirCreated : Bool
  result : SpawnResult
  outFilePresent : Bool
deriving DecidableEq, Repr

/-- Shared-cell side effects of one job: the write to the Thumbnail Cache
Path Cell, if any, and the sequence of Status Cell writes. -/
structure JobEffects where
  cellWrite : Option PathB
  statusWrites : List Status
deriving DecidableEq, Repr

/-- The async task spawned by `App::extract_thumbnail_async`
(`src/main.rs` lines 129-216): create the scratch dir (failure returns
early), build the timestamped output path, convert both paths with
`to_str` (a `None` returns early), run ffmpeg, and only when the
subprocess exits successfully AND the output file exists write
`Some(thumbnail_file)` to the Thumbnail Cache Path Cell. The task never
touches the Status Cell (`statusWrites` is `[]` because no such write
occurs anywhere in the task). -/
def thumbJobEffects (envTemp video : PathB) (timestamp : Nat) (env : ThumbEnv) :
    JobEffects :=
  { statusWrites := []
    cellWrite :=
      if env.dirCreated = false then none
      else
        let tf := thumbnailFile envTemp timestamp
        match pathToStr video with
        | none => none
        | some _ =>
          match pathToStr tf with
          | none => none
          | some _ =>
            match env.result with
            | .err _ => none
            | .ok success _ =>
              if success && env.outFilePresent then some tf else none }

/-- UI-facing state of the convert button logic: whether an input is
selected, the Status Cell value, and how many conversion jobs spawned for
the current selection are still running (ghost bookkeeping). -/
structure UiState where
  hasInput : Bool
  status : Status
  inflight : Nat
deriving DecidableEq, Repr

/-- The can-convert gate of `App::update` (`src/main.rs` lines 525-526):
an input is selected and the status is not `Converting`. -/
def canConvert (s : UiState) : Bool :=
  s.hasInput && !(s.status = Status.converting)

/-- Events of the click/convert step relation: a click on the convert
button, and the completion of a running conversion job with subprocess
outcome `r`. -/
inductive UiEvent where
  | clickConvert
  | finishConvert (r : SpawnResult)

/-- One step of the click/convert relation for a fixed selection
(`src/main.rs` lines 550-552 and 219-272): a click spawns `App::convert`
only when the gate holds, which sets the status to `Converting`; a
completing job writes its terminal status. -/
def uiStep (s : UiState) (e : UiEvent) : UiState :=
  match e with
  | .clickConvert =>
    if canConvert s then
      { s with status := .converting, inflight := s.inflight + 1 }
    else s
  | .finishConvert r =>
    if s.inflight > 0 then
      { s with status := statusOfResult r, inflight := s.inflight - 1 }
    else s

/-- States of the click/convert step relation reachable from a fresh
selection (status `Idle`, no job running, as `set_input` leaves it). -/
inductive UiReachable : UiState → Prop where
  | init (h : Bool) :
      UiReachable { hasInput := h, status := .idle, inflight := 0 }
  | step {s : UiState} (e : UiEvent) :
      UiReachable s → UiReachable (uiStep s e)

/-- The subprocess ran and exited successfully (`output.status.success()`
on the `Ok` branch). -/
def SpawnResult.succeeded : SpawnResult → Bool
  | .ok true _ => true
  | _ => false

/-- Boolean string-begins-with, at the character-list level. -/
def strStarts (s pre : String) : Bool :=
  decide (s.data.take pre.data.length = pre.data)

/-- One invocation of the thumbnail job: an identifier distinguishing the
invocation (two concurrent or successive jobs have different identifiers)
and the whole-second Unix timestamp observed at its start. -/
structure ThumbInvocation where
  jobId : Nat
  timestamp : Nat
deriving DecidableEq, Repr

/-- The output image path an invocation generates: it depends only on the
invocation's coarse timestamp (`src/main.rs` lines 141-145). -/
def invocationThumbPath (envTemp : PathB) (inv : ThumbInvocation) : PathB :=
  thumbnailFile envTemp inv.timestamp

/-- Numeric value of a decimal digit-byte string (left inverse of
`decDigits`, used to prove its injectivity). -/
def decVal (l : List Nat) : Nat := l.foldl (fun a d => a * 10 + (d - 48)) 0

lemma breakAtLast_eq {sep : Nat} :
    ∀ {l pre post : List Nat}, breakAtLast sep l = some (pre, post) →
      l = pre ++ sep :: post := by
  intro l
  induction l with
  | nil => intro pre post h; simp [breakAtLast] at h
  | cons b rest ih =>
    intro pre post h
    rw [breakAtLast] at h
    cases hb : breakAtLast sep rest with
    | some pp =>
      rw [hb] at h
      obtain ⟨pre', post'⟩ := pp
      simp at h
      obtain ⟨h1, h2⟩ := h
      subst h1; subst h2
      simp [ih hb]
    | none =>
      rw [hb] at h
      by_cases hs : b = sep
      · simp [hs] at h
        obtain ⟨h1, h2⟩ := h
        subst h1; subst h2
        simp [hs]
      · simp [hs] at h

lemma fileNameSplit_eq (p : PathB) :
    (fileNameSplit p).1 ++ (fileNameSplit p).2 = p := by
  rw [fileNameSplit]
  cases hb : breakAtLast 47 p with
  | some pp =>
    obtain ⟨pre, post⟩ := pp
    simp [breakAtLast_eq hb]
  | none => simp

lemma decVal_decDigits (n : Nat) : decVal (decDigits n) = n := by
  induction n using Nat.strong_induction_on with
  | _ n ih =>
    rw [decDigits]
    by_cases h : n < 10
    · simp [h, decVal]
    · have hlt : n / 10 < n := Nat.div_lt_self (by omega) (by omega)
      have hv := ih (n / 10) hlt
      simp only [h, if_false]
      unfold decVal at hv ⊢
      rw [List.foldl_append, hv]
      simp
      omega

lemma decDigits_inj {m n : Nat} (h : decDigits m = decDigits n) : m = n := by
  have := decVal_decDigits m
  rw [h, decVal_decDigits] at this
  omega

/-- C1: for every input/output path pair on which the conversion task
reaches the subprocess (both paths convert to strings) and every
subprocess outcome, the Status Cell receives `Done` on a successful exit,
`Error` with the lossily decoded captured stderr on a failing exit, and
`Error` with the spawn-failure description when the subprocess could not
be spawned. -/
theorem C1_convert_result_mapping (input output : PathB) (stderr : List Nat)
    (e : String)
    (hi : isValidUtf8 input = true) (ho : isValidUtf8 output = true) :
    convertTask input output (.ok true stderr) = some .done ∧
    convertTask input output (.ok false stderr)
      = some (.error (fromUtf8Lossy stderr)) ∧
    convertTask input output (.err e) = some (.error e) := by
  simp [convertTask, pathToStr, hi, ho, statusOfResult]

/-- Witness for C1 at a concrete path pair and concrete outcomes. -/
theorem C1_convert_result_mapping_witness :
    convertTask (strBytes "clip.mkv") (strBytes "clip.mp3")
      (.ok true (strBytes "warn")) = some .done ∧
    convertTask (strBytes "clip.mkv") (strBytes "clip.mp3")
      (.ok false (strBytes "warn"))
      = some (.error (fromUtf8Lossy (strBytes "warn"))) ∧
    convertTask (strBytes "clip.mkv") (strBytes "clip.mp3") (.err "boom")
      = some (.error "boom") :=
  C1_convert_result_mapping (strBytes "clip.mkv") (strBytes "clip.mp3")
    (strBytes "warn") "boom" (by decide) (by decide)

/-- C5: for every valid (UTF-8-convertible) input/output path pair, a
successful conversion writes exactly the Status-Cell sequence
`Converting` (synchronously, before the subprocess runs) then `Done` (at
completion), so `Done` is never reached without `Converting` first. -/
theorem C5_converting_then_done (input output : PathB) (stderr : List Nat)
    (hi : isValidUtf8 input = true) (ho : isValidUtf8 output = true) :
    convertStatusTrace input output (.ok true stderr)
      = [Status.converting, Status.done] := by
  simp [convertStatusTrace, convertTask, pathToStr, hi, ho, statusOfResult]

/-- Witness for C5 at a concrete path pair. -/
theorem C5_converting_then_done_witness :
    convertStatusTrace (strBytes "movie.mp4") (strBytes "movie.mp3")
      (.ok true []) = [Status.converting, Status.done] :=
  C5_converting_then_done (strBytes "movie.mp4") (strBytes "movie.mp3") []
    (by decide) (by decide)

/-- C7, counterexample: with the tool missing, the spawn failure yields
`Error` holding the io-error description verbatim — it does not begin
with the literal `"failed to spawn: "` the claim requires. -/
theorem C7_counterexample :
    convertTask (strBytes "clip.mkv") (strBytes "clip.mp3")
      (.err "No such file or directory (os error 2)")
      = some (.error "No such file or directory (os error 2)") ∧
    strStarts "No such file or directory (os error 2)" "failed to spawn: "
      = false := by
  constructor
  · rfl
  · decide

/-- C7, amended: when the external tool cannot be spawned, the Status
Cell is set to `Error(e)` where `e` is exactly the spawn-failure
description (`e.to_string()`), with no added text. -/
theorem C7_spawn_error_verbatim (input output : PathB) (e : String)
    (hi : isValidUtf8 input = true) (ho : isValidUtf8 output = true) :
    convertTask input output (.err e) = some (.error e) := by
  simp [convertTask, pathToStr, hi, ho, statusOfResult]

/-- Witness for the amended C7 at a concrete path pair and description. -/
theorem C7_spawn_error_verbatim_witness :
    convertTask (strBytes "clip.mkv") (strBytes "clip.mp3")
      (.err "No such file or directory (os error 2)")
      = some (.error "No such file or directory (os error 2)") :=
  C7_spawn_error_verbatim (strBytes "clip.mkv") (strBytes "clip.mp3")
    "No such file or directory (os error 2)" (by decide) (by decide)

/-- C9: when both paths are valid UTF-8 the `to_str().unwrap()` calls in
the conversion task succeed and the task writes a terminal status for
every outcome; when either path is not valid UTF-8 the task panics
before writing, and the Status Cell — set to `Converting` synchronously
by `App::convert` — stays `Converting` forever, whatever it held
before. -/
theorem C9_utf8_unwrap_panic (input output : PathB) (r : SpawnResult) :
    (isValidUtf8 input = true → isValidUtf8 output = true →
      convertTask input output r = some (statusOfResult r)) ∧
    (isValidUtf8 input = false ∨ isValidUtf8 output = false →
      convertTask input output r = none ∧
      ∀ init : Status,
        cellAfter init (convertStatusTrace input output r)
          = Status.converting) := by
  constructor
  · intro hi ho
    simp [convertTask, pathToStr, hi, ho]
  · intro hbad
    have hnone : convertTask input output r = none := by
      rcases hbad with hb | hb <;> simp [convertTask, pathToStr, hb]
    refine ⟨hnone, ?_⟩
    intro init
    simp [convertStatusTrace, hnone, cellAfter]

/-- Witness for C9: a valid pair writes its terminal status; the invalid
byte `0xFF` as input path leaves the cell at `Converting`. -/
theorem C9_utf8_unwrap_panic_witness :
    convertTask (strBytes "in.mp4") (strBytes "in.mp3") (.ok true [])
      = some (statusOfResult (.ok true [])) ∧
    convertTask [255] (strBytes "in.mp3") (.ok true []) = none ∧
    cellAfter Status.idle
      (convertStatusTrace [255] (strBytes "in.mp3") (.ok true []))
      = Status.converting := by
  refine ⟨(C9_utf8_unwrap_panic (strBytes "in.mp4") (strBytes "in.mp3")
    (.ok true [])).1 (by decide) (by decide), ?_, ?_⟩
  · exact ((C9_utf8_unwrap_panic [255] (strBytes "in.mp3")
      (.ok true [])).2 (Or.inl (by decide))).1
  · exact ((C9_utf8_unwrap_panic [255] (strBytes "in.mp3")
      (.ok true [])).2 (Or.inl (by decide))).2 Status.idle

/-- C3: for every prior application state and every input path,
`set_input` immediately resets the Status Cell to `Idle` and the
Thumbnail Cache Path Cell to `None`, and stores the input path together
with its derived output path — whatever any in-flight job later does,
since the transition depends on nothing else. -/
theorem C3_set_input_resets (s : AppState) (p : PathB) :
    (set_input s p).status = Status.idle ∧
    (set_input s p).thumbnail_path = none ∧
    (set_input s p).input_path = some p ∧
    (set_input s p).output_path = some (setExtension p mp3Bytes) := by
  simp [set_input]

/-- C2: the thumbnail job writes `Some(generated path)` to the Thumbnail
Cache Path Cell exactly when the scratch dir was created, both paths
convert to strings, the subprocess exited successfully AND the output
file is present on disk; every other outcome leaves the cell unwritten,
and the job never writes the Status Cell. -/
theorem C2_thumbnail_effects (envTemp video : PathB) (ts : Nat)
    (env : ThumbEnv) :
    ((thumbJobEffects envTemp video ts env).cellWrite
        = some (thumbnailFile envTemp ts) ↔
      env.dirCreated = true ∧ isValidUtf8 video = true ∧
      isValidUtf8 (thumbnailFile envTemp ts) = true ∧
      env.result.succeeded = true ∧ env.outFilePresent = true) ∧
    ((thumbJobEffects envTemp video ts env).cellWrite = none ∨
      (thumbJobEffects envTemp video ts env).cellWrite
        = some (thumbnailFile envTemp ts)) ∧
    (thumbJobEffects envTemp video ts env).statusWrites = [] := by
  obtain ⟨dc, r, fp⟩ := env
  refine ⟨?_, ?_, rfl⟩ <;>
    by_cases hv : isValidUtf8 video <;>
      by_cases ht : isValidUtf8 (thumbnailFile envTemp ts) <;>
        cases dc <;> cases fp <;>
          rcases r with ⟨es, st⟩ | e <;> (try cases es) <;>
            simp_all [thumbJobEffects, pathToStr, SpawnResult.succeeded]

lemma uiReachable_inv (s : UiState) (h : UiReachable s) :
    s.inflight ≤ 1 ∧ (s.inflight = 1 → s.status = Status.converting) := by
  induction h with
  | init hInput => simp
  | @step s e _ ih =>
    cases e with
    | clickConvert =>
      by_cases hc : canConvert s = true
      · have hnc : ¬s.status = Status.converting := by
          simp [canConvert] at hc
          exact hc.2
        have h0 : s.inflight = 0 := by
          rcases Nat.lt_or_ge s.inflight 1 with h1 | h1
          · omega
          · exact absurd (ih.2 (by omega)) hnc
        simp [uiStep, hc, h0]
      · simp [uiStep, hc]
        exact ih
    | finishConvert r =>
      by_cases hp : s.inflight > 0
      · simp [uiStep, hp]
        have h1 := ih.1
        constructor
        · omega
        · intro h2
          omega
      · simp [uiStep, hp]
        exact ih

/-- C4: in every state reachable by the click/convert step relation from
a fresh selection, at most one conversion job is in flight, and a click
changes the in-flight count only when the can-convert gate (input
selected, status not `Converting`) holds. -/
theorem C4_single_flight (s : UiState) (h : UiReachable s) :
    s.inflight ≤ 1 ∧
    ((uiStep s UiEvent.clickConvert).inflight ≠ s.inflight →
      canConvert s = true) := by
  refine ⟨(uiReachable_inv s h).1, ?_⟩
  intro hne
  by_cases hc : canConvert s = true
  · exact hc
  · simp [uiStep, hc] at hne

/-- Witness for C4: the rapid double-click scenario — two clicks from a
fresh selection leave at most one job in flight. -/
theorem C4_single_flight_witness :
    (uiStep (uiStep { hasInput := true, status := Status.idle, inflight := 0 }
      UiEvent.clickConvert) UiEvent.clickConvert).inflight ≤ 1 :=
  (C4_single_flight _
    (UiReachable.step UiEvent.clickConvert
      (UiReachable.step UiEvent.clickConvert (UiReachable.init true)))).1

/-- C6, counterexample: two distinct thumbnail job invocations that start
within the same whole second generate the same output image path, so the
claimed collision-freedom for every two invocations fails. -/
theorem C6_counterexample :
    (⟨0, 42⟩ : ThumbInvocation) ≠ (⟨1, 42⟩ : ThumbInvocation) ∧
    invocationThumbPath [] ⟨0, 42⟩ = invocationThumbPath [] ⟨1, 42⟩ :=
  ⟨by decide, rfl⟩

/-- C6, amended: the generated output image paths of two thumbnail job
invocations are distinct whenever their whole-second start timestamps
differ; invocations within the same second generate the same path. -/
theorem C6_distinct_timestamps (envTemp : PathB) (t1 t2 : Nat)
    (h : t1 ≠ t2) :
    thumbnailFile envTemp t1 ≠ thumbnailFile envTemp t2 := by
  intro he
  apply h
  apply decDigits_inj
  simp only [thumbnailFile, pathJoin, tempDirOf] at he
  have h1 := List.append_cancel_left he
  injection h1 with _ h2
  have h3 := List.append_cancel_right h2
  exact List.append_cancel_left h3

/-- Witness for the amended C6 at two concrete timestamps. -/
theorem C6_distinct_timestamps_witness :
    thumbnailFile [] 1 ≠ thumbnailFile [] 2 :=
  C6_distinct_timestamps [] 1 2 (by decide)

/-- C8: for a selected input path whose final component carries an
extension, the derived output path stored by `set_input` is the input
path with that extension replaced by `mp3` (same directory, same stem),
and the conversion command always passes the overwrite flag `-y`,
whatever the paths are. -/
theorem C8_output_replaces_extension (s : AppState) (p : PathB)
    (i o : String) (ext : List Nat)
    (hg : goodPath p = true) (hx : extOf p = some ext) :
    (set_input s p).output_path = some (setExtension p mp3Bytes) ∧
    p = (fileNameSplit p).1 ++ (stemExtSplit (fileNameSplit p).2).1
        ++ 46 :: ext ∧
    setExtension p mp3Bytes
      = (fileNameSplit p).1 ++ (stemExtSplit (fileNameSplit p).2).1
        ++ 46 :: mp3Bytes ∧
    "-y" ∈ convert_args i o := by
  cases hb : breakAtLast 46 (fileNameSplit p).2 with
  | none => simp [extOf, stemExtSplit, hb] at hx
  | some pp =>
    obtain ⟨pre, post⟩ := pp
    by_cases hpre : pre = []
    · simp [extOf, stemExtSplit, hb, hpre] at hx
    · have hpost : post = ext := by
        simpa [extOf, stemExtSplit, hb, hpre] using hx
      have hname : (fileNameSplit p).2 = pre ++ 46 :: post :=
        breakAtLast_eq hb
      have hstem : (stemExtSplit (fileNameSplit p).2).1 = pre := by
        simp [stemExtSplit, hb, hpre]
      refine ⟨rfl, ?_, ?_, by simp [convert_args]⟩
      · conv_lhs => rw [← fileNameSplit_eq p, hname]
        simp [hstem, hpost]
      · simp [setExtension, hg, hstem, mp3Bytes, strBytes]

/-- Witness for C8 at the concrete selection `movie.mp4`. -/
theorem C8_output_replaces_extension_witness :
    (set_input appNew (strBytes "movie.mp4")).output_path
      = some (setExtension (strBytes "movie.mp4") mp3Bytes) ∧
    strBytes "movie.mp4"
      = (fileNameSplit (strBytes "movie.mp4")).1
        ++ (stemExtSplit (fileNameSplit (strBytes "movie.mp4")).2).1
        ++ 46 :: strBytes "mp4" ∧
    setExtension (strBytes "movie.mp4") mp3Bytes
      = (fileNameSplit (strBytes "movie.mp4")).1
        ++ (stemExtSplit (fileNameSplit (strBytes "movie.mp4")).2).1
        ++ 46 :: mp3Bytes ∧
    "-y" ∈ convert_args "movie.mp4" "movie.mp3" :=
  C8_output_replaces_extension appNew (strBytes "movie.mp4")
    "movie.mp4" "movie.mp3" (strBytes "mp4") (by decide) (by decide)

/-- C10: `set_extension` semantics on edge cases — an input already
ending in `.mp3` derives an output path equal to the input path itself,
an input with no extension gets `.mp3` appended; and the drag-and-drop
handler passes any dropped path to `set_input` unfiltered, so both
inputs are reachable. -/
theorem C10_set_extension_edge_cases (p : PathB) (hg : goodPath p = true) :
    (extOf p = some mp3Bytes → setExtension p mp3Bytes = p) ∧
    (extOf p = none → setExtension p mp3Bytes = p ++ 46 :: mp3Bytes) ∧
    (∀ (s : AppState) (rest : List PathB),
      (handleDrop s (p :: rest)).input_path = some p ∧
      (handleDrop s (p :: rest)).output_path
        = some (setExtension p mp3Bytes)) := by
  refine ⟨?_, ?_, fun s rest => ⟨rfl, rfl⟩⟩
  · intro hx
    cases hb : breakAtLast 46 (fileNameSplit p).2 with
    | none => simp [extOf, stemExtSplit, hb] at hx
    | some pp =>
      obtain ⟨pre, post⟩ := pp
      by_cases hpre : pre = []
      · simp [extOf, stemExtSplit, hb, hpre] at hx
      · have hpost : post = mp3Bytes := by
          simpa [extOf, stemExtSplit, hb, hpre] using hx
        have hname : (fileNameSplit p).2 = pre ++ 46 :: post :=
          breakAtLast_eq hb
        conv_rhs => rw [← fileNameSplit_eq p, hname]
        simp [setExtension, hg, stemExtSplit, hb, hpre, hpost,
          mp3Bytes, strBytes]
  · intro hx
    have hstem : (stemExtSplit (fileNameSplit p).2).1 = (fileNameSplit p).2 := by
      cases hb : breakAtLast 46 (fileNameSplit p).2 with
      | none => simp [stemExtSplit, hb]
      | some pp =>
        obtain ⟨pre, post⟩ := pp
        by_cases hpre : pre = []
        · simp [stemExtSplit, hb, hpre]
        · simp [extOf, stemExtSplit, hb, hpre] at hx
    conv_rhs => rw [← fileNameSplit_eq p]
    simp [setExtension, hg, hstem, mp3Bytes, strBytes]

/-- Witness for C10: an `.mp3` input maps to itself, an extensionless
input gets `.mp3` appended, and a dropped file is accepted as-is. -/
theorem C10_set_extension_edge_cases_witness :
    setExtension (strBytes "song.mp3") mp3Bytes = strBytes "song.mp3" ∧
    setExtension (strBytes "noext") mp3Bytes
      = strBytes "noext" ++ 46 :: mp3Bytes ∧
    (handleDrop appNew [strBytes "anything.xyz"]).input_path
      = some (strBytes "anything.xyz") :=
  ⟨(C10_set_extension_edge_cases (strBytes "song.mp3") (by decide)).1
      (by decide),
   (C10_set_extension_edge_cases (strBytes "noext") (by decide)).2.1
      (by decide),
   ((C10_set_extension_edge_cases (strBytes "anything.xyz")
      (by decide)).2.2 appNew []).1⟩
